import Mathlib

/-!
Verification of the ensemble-retrieval and context-selection core of
`bisheng_langchain/rag/bisheng_rag_tool.py` (class `BishengRAGTool`).

The embedding models a langchain `Document` as a record holding its text and
the metadata keys the tool reads (`source`, `chunk_index`, optionally
`title`); fallible Python calls (retriever calls, the QA chain, title
extraction) are modelled as `Except String` values, a raised exception being
the `error` case carrying `str(e)`.
-/

namespace BishengRag

/-- A retrieved chunk: `page_content` plus the metadata keys the tool uses.
`title` is `none` when the `title` key is absent from the metadata dict. -/
structure Document where
  page_content : String
  source : String
  chunk_index : Int
  title : Option String := none
  deriving Repr, DecidableEq

/-- The deduplication / sort key `(metadata['source'], metadata['chunk_index'])`. -/
def dedupKey (d : Document) : String × Int :=
  (d.source, d.chunk_index)

/-- The comparison used by `sorted(docs, key=lambda x: (x.metadata['source'],
x.metadata['chunk_index']))` at line 212: lexicographic order on the key pair
(Python compares tuples lexicographically, strings by code point). -/
def docLe (a b : Document) : Bool :=
  decide (a.source < b.source ∨ (a.source = b.source ∧ a.chunk_index ≤ b.chunk_index))

/-- The truncation loop of `retrieval_and_rerank` (lines 200-205): walk `docs`
accumulating `doc_content_sum`; as soon as the running sum would exceed
`max_content`, stop without counting that document; otherwise increment
`doc_num`. Returns the final `doc_num`. -/
def truncateLoop (max_content : Nat) : List Document → Nat → Nat → Nat
  | [], _, doc_num => doc_num
  | doc :: rest, doc_content_sum, doc_num =>
    if max_content < doc_content_sum + doc.page_content.length then doc_num
    else truncateLoop max_content rest (doc_content_sum + doc.page_content.length) (doc_num + 1)

/-- Line 206, `docs = docs[:doc_num]`, with `doc_num` produced by the loop
started from `doc_num, doc_content_sum = 0, 0` (line 200). -/
def selectByBudget (docs : List Document) (max_content : Nat) : List Document :=
  docs.take (truncateLoop max_content docs 0 0)

/-- The pure tail of `retrieval_and_rerank` (lines 199-213): budget truncation
followed, when `sort_by_source_and_index` is configured, by the stable sort by
`(source, chunk_index)`; `List.mergeSort` is stable, like Python `sorted`. -/
def retrievalAndRerankDocs (docs : List Document) (max_content : Nat)
    (sort_by_source_and_index : Bool) : List Document :=
  let kept := selectByBudget docs max_content
  if sort_by_source_and_index then kept.mergeSort docLe else kept

/-- `retrieval_and_rerank` (lines 188-213): the ensemble retrieval call, which
may raise (modelled as `Except`), then truncation and the optional sort. A
retrieval failure propagates out of the method. -/
def retrievalAndRerank (get_relevant_documents : String → Except String (List Document))
    (max_content : Nat) (sort_by_source_and_index : Bool) (query : String) :
    Except String (List Document) :=
  match get_relevant_documents query with
  | Except.error e => Except.error e
  | Except.ok docs => Except.ok (retrievalAndRerankDocs docs max_content sort_by_source_and_index)

/-- `run` (lines 215-223): the `retrieval_and_rerank` call sits outside the
`try`, so a retrieval failure propagates; the `qa_chain` call is inside
`try ... except Exception as e`, where the answer payload becomes `str(e)`, so
a generation failure is returned as an ordinary answer string. -/
def run (get_relevant_documents : String → Except String (List Document))
    (qa_chain : List Document → String → Except String String)
    (max_content : Nat) (sort_by_source_and_index : Bool) (query : String) :
    Except String String :=
  match retrievalAndRerank get_relevant_documents max_content sort_by_source_and_index query with
  | Except.error e => Except.error e
  | Except.ok docs =>
    match qa_chain docs query with
    | Except.ok output_text => Except.ok output_text
    | Except.error e => Except.ok e

/-- `arun` (lines 225-227): the asynchronous entry point simply calls `run`
and returns its answer; no additional computation happens. -/
def arun (get_relevant_documents : String → Except String (List Document))
    (qa_chain : List Document → String → Except String String)
    (max_content : Nat) (sort_by_source_and_index : Bool) (query : String) :
    Except String String :=
  run get_relevant_documents qa_chain max_content sort_by_source_and_index query

/-- The constructor guard of `BishengRAGTool.__init__` (lines 44-45):
`if collection_name is None and (keyword_store is None or vector_store is
None): raise ValueError(...)`. Returns `true` exactly when that `ValueError`
is raised. -/
def initRaisesConfigError {V K : Type} (vector_store : Option V)
    (keyword_store : Option K) (collection_name : Option String) : Bool :=
  collection_name.isNone && (keyword_store.isNone || vector_store.isNone)

/-- The four retriever classes registered in `_post_init_retriever`
(lines 127-132). -/
inductive RetrieverClass where
  | KeywordRetriever
  | BaselineVectorRetriever
  | MixRetriever
  | SmallerChunksVectorRetriever
  deriving Repr, DecidableEq

/-- The `retriever_classes` dict of `_post_init_retriever` (lines 127-132),
as an association list. -/
def retrieverClasses : List (String × RetrieverClass) :=
  [("KeywordRetriever", RetrieverClass.KeywordRetriever),
   ("BaselineVectorRetriever", RetrieverClass.BaselineVectorRetriever),
   ("MixRetriever", RetrieverClass.MixRetriever),
   ("SmallerChunksVectorRetriever", RetrieverClass.SmallerChunksVectorRetriever)]

/-- The type dispatch of `_post_init_retriever` (lines 126-134, 149-150):
an unregistered `retriever_type` raises `ValueError(f'Unknown retriever type:
{retriever_type}')`; a registered one selects the corresponding class. -/
def postInitRetriever (retriever_type : String) : Except String RetrieverClass :=
  match retrieverClasses.find? (fun p => p.1 == retriever_type) with
  | none => Except.error ("Unknown retriever type: " ++ retriever_type)
  | some p => Except.ok p.2

/-- The `add_aux_info` loop of `file2knowledge` (lines 170-178): for every
loaded document, try `extract_title`; any exception is caught and the title
falls back to the empty string; then `doc.metadata['title'] = title`. -/
def addAuxInfo (extract_title : Document → Except String String)
    (documents : List Document) : List Document :=
  documents.map fun doc =>
    let title := match extract_title doc with
      | Except.ok t => t
      | Except.error _ => ""
    { doc with title := some title }

/-- Modelled from the spec: the merge performed inside
`EnsembleRetriever.get_relevant_documents` (the class body is not among the
provided sources; line 192 records that it deduplicates by default). Per the
spec, the ranked lists are concatenated in registration order and every chunk
whose `(source, chunk_index)` key was already seen is dropped, the first
occurrence being kept. `dedupByKey` walks the concatenation with the set of
seen keys. -/
def dedupByKey (seen : List (String × Int)) : List Document → List Document
  | [] => []
  | d :: rest =>
    if dedupKey d ∈ seen then dedupByKey seen rest
    else d :: dedupByKey (dedupKey d :: seen) rest

/-- Modelled from the spec: the full ensemble merge — concatenate the
strategies' ranked lists in registration order, then deduplicate by key,
keeping first occurrences. -/
def ensembleMerge (ranked_lists : List (List Document)) : List Document :=
  dedupByKey [] ranked_lists.flatten

/-- Total `page_content` length of a list of documents. -/
def contentSum (docs : List Document) : Nat :=
  (docs.map fun d => d.page_content.length).sum

/-- Structural restatement of the truncation loop, tracking the remaining
budget instead of the running sum. -/
def numFit : List Document → Nat → Nat
  | [], _ => 0
  | d :: rest, budget =>
    if budget < d.page_content.length then 0
    else numFit rest (budget - d.page_content.length) + 1

@[simp] theorem contentSum_nil : contentSum [] = 0 := rfl

@[simp] theorem contentSum_cons (d : Document) (l : List Document) :
    contentSum (d :: l) = d.page_content.length + contentSum l := by
  simp [contentSum]

/-- The accumulator loop agrees with the budget-tracking restatement. -/
theorem truncateLoop_eq_numFit (max_content : Nat) :
    ∀ (docs : List Document) (s n : Nat), s ≤ max_content →
      truncateLoop max_content docs s n = n + numFit docs (max_content - s) := by
  intro docs
  induction docs with
  | nil => intro s n _; simp [truncateLoop, numFit]
  | cons d rest ih =>
    intro s n hs
    simp only [truncateLoop, numFit]
    by_cases h : max_content < s + d.page_content.length
    · rw [if_pos h, if_pos (by omega)]
      omega
    · rw [if_neg h, if_neg (by omega), ih (s + d.page_content.length) (n + 1) (by omega)]
      have hsub : max_content - (s + d.page_content.length) =
          max_content - s - d.page_content.length := by omega
      rw [hsub]
      omega

theorem selectByBudget_eq_take (docs : List Document) (M : Nat) :
    selectByBudget docs M = docs.take (numFit docs M) := by
  unfold selectByBudget
  rw [truncateLoop_eq_numFit M docs 0 0 (Nat.zero_le _)]
  simp

theorem numFit_le_length : ∀ (docs : List Document) (budget : Nat),
    numFit docs budget ≤ docs.length := by
  intro docs
  induction docs with
  | nil => intro budget; simp [numFit]
  | cons d rest ih =>
    intro budget
    simp only [numFit, List.length_cons]
    by_cases h : budget < d.page_content.length
    · rw [if_pos h]; omega
    · rw [if_neg h]
      have := ih (budget - d.page_content.length)
      omega

theorem contentSum_take_numFit : ∀ (docs : List Document) (budget : Nat),
    contentSum (docs.take (numFit docs budget)) ≤ budget := by
  intro docs
  induction docs with
  | nil => intro budget; simp [numFit]
  | cons d rest ih =>
    intro budget
    simp only [numFit]
    by_cases h : budget < d.page_content.length
    · rw [if_pos h]; simp
    · rw [if_neg h]
      simp only [List.take_succ_cons, contentSum_cons]
      have := ih (budget - d.page_content.length)
      omega

theorem numFit_maximal : ∀ (docs : List Document) (budget k : Nat),
    k ≤ docs.length → contentSum (docs.take k) ≤ budget → k ≤ numFit docs budget := by
  intro docs
  induction docs with
  | nil =>
    intro budget k hk _
    simp only [List.length_nil, Nat.le_zero] at hk
    simp [hk, numFit]
  | cons d rest ih =>
    intro budget k hk hsum
    match k with
    | 0 => exact Nat.zero_le _
    | j + 1 =>
      simp only [List.take_succ_cons, contentSum_cons] at hsum
      simp only [numFit]
      rw [if_neg (by omega)]
      have := ih (budget - d.page_content.length) j (by simpa using hk) (by omega)
      omega

theorem numFit_next_exceeds : ∀ (docs : List Document) (budget : Nat) (d : Document),
    docs[numFit docs budget]? = some d →
      budget < contentSum (docs.take (numFit docs budget)) + d.page_content.length := by
  intro docs
  induction docs with
  | nil => intro budget d h; simp at h
  | cons d0 rest ih =>
    intro budget d h
    by_cases hb : budget < d0.page_content.length
    · simp only [numFit, if_pos hb] at h ⊢
      simp only [List.getElem?_cons_zero, Option.some.injEq] at h
      subst h
      simpa using hb
    · simp only [numFit, if_neg hb] at h ⊢
      simp only [List.getElem?_cons_succ] at h
      have := ih (budget - d0.page_content.length) d h
      simp only [List.take_succ_cons, contentSum_cons]
      omega

theorem docLe_trans (a b c : Document) : docLe a b = true → docLe b c = true → docLe a c = true := by
  simp only [docLe, decide_eq_true_eq]
  rintro (h₁ | ⟨h₁, h₁i⟩) (h₂ | ⟨h₂, h₂i⟩)
  · exact Or.inl (lt_trans h₁ h₂)
  · exact Or.inl (h₂ ▸ h₁)
  · exact Or.inl (h₁ ▸ h₂)
  · exact Or.inr ⟨h₁.trans h₂, le_trans h₁i h₂i⟩

theorem docLe_total (a b : Document) : (docLe a b || docLe b a) = true := by
  simp only [docLe, Bool.or_eq_true, decide_eq_true_eq]
  rcases lt_trichotomy a.source b.source with h | h | h
  · exact Or.inl (Or.inl h)
  · rcases le_total a.chunk_index b.chunk_index with hi | hi
    · exact Or.inl (Or.inr ⟨h, hi⟩)
    · exact Or.inr (Or.inr ⟨h.symm, hi⟩)
  · exact Or.inr (Or.inl h)

theorem docLe_of_dedupKey_eq (a b : Document) (h : dedupKey a = dedupKey b) :
    docLe a b = true := by
  simp only [dedupKey, Prod.mk.injEq] at h
  simp only [docLe, decide_eq_true_eq]
  exact Or.inr ⟨h.1, le_of_eq h.2⟩

/-- Claim C1: the context selection of `retrieval_and_rerank` returns exactly
the longest prefix of the retrieved list whose cumulative `page_content`
length is at most `M`: the result is a prefix of the input, its total length
is at most `M`, no longer prefix fits the budget, and the next chunk of the
input (when one exists) would push the total over `M`. -/
theorem claim1_budget_longest_prefix (docs : List Document) (M : Nat) :
    retrievalAndRerankDocs docs M false = selectByBudget docs M ∧
    selectByBudget docs M <+: docs ∧
    contentSum (selectByBudget docs M) ≤ M ∧
    (∀ p : List Document, p <+: docs → contentSum p ≤ M →
      p.length ≤ (selectByBudget docs M).length) ∧
    (∀ d : Document, docs[(selectByBudget docs M).length]? = some d →
      M < contentSum (selectByBudget docs M) + d.page_content.length) := by
  have hsel := selectByBudget_eq_take docs M
  have hlen : (selectByBudget docs M).length = numFit docs M := by
    rw [hsel, List.length_take]
    exact Nat.min_eq_left (numFit_le_length docs M)
  refine ⟨by simp [retrievalAndRerankDocs], ?_, ?_, ?_, ?_⟩
  · rw [hsel]
    exact ⟨docs.drop (numFit docs M), List.take_append_drop _ _⟩
  · rw [hsel]
    exact contentSum_take_numFit docs M
  · intro p hp hpsum
    rw [hlen]
    have hpl : p.length ≤ docs.length := hp.length_le
    have hpe : p = docs.take p.length := List.prefix_iff_eq_take.mp hp
    exact numFit_maximal docs M p.length hpl (by rw [← hpe]; exact hpsum)
  · intro d hd
    rw [hlen] at hd
    rw [hsel]
    exact numFit_next_exceeds docs M d hd

/-- Claim C2: enabling `sort_by_source_and_index` changes only the order of
the chunks returned by `retrieval_and_rerank`, never which chunks are
returned: for the same retrieved list and maximum, the sorted result is a
permutation of the unsorted one, it is exactly the stable sort of the
already-truncated list (so the sort runs after budget truncation), it is
ordered by `(source, chunk_index)` ascending, and chunks with equal keys keep
their relative order. -/
theorem claim2_sort_only_reorders (docs : List Document) (M : Nat) :
    (retrievalAndRerankDocs docs M true).Perm (retrievalAndRerankDocs docs M false) ∧
    retrievalAndRerankDocs docs M true = (retrievalAndRerankDocs docs M false).mergeSort docLe ∧
    (retrievalAndRerankDocs docs M true).Pairwise (fun a b => docLe a b = true) ∧
    (∀ a b : Document, dedupKey a = dedupKey b →
      List.Sublist [a, b] (retrievalAndRerankDocs docs M false) →
      List.Sublist [a, b] (retrievalAndRerankDocs docs M true)) := by
  refine ⟨?_, by simp [retrievalAndRerankDocs], ?_, ?_⟩
  · simp only [retrievalAndRerankDocs, if_true, if_false]
    exact List.mergeSort_perm (selectByBudget docs M) docLe
  · simp only [retrievalAndRerankDocs, if_true]
    exact List.sorted_mergeSort docLe_trans docLe_total (selectByBudget docs M)
  · intro a b hkey hsub
    simp only [retrievalAndRerankDocs, if_true, if_false] at hsub ⊢
    exact List.pair_sublist_mergeSort docLe_trans docLe_total
      (docLe_of_dedupKey_eq a b hkey) hsub

/-- Claim C3: when the very first retrieved chunk alone exceeds the maximum
content length, `retrieval_and_rerank` returns the empty chunk list, whatever
the sort flag, and hence hands no chunk to the answer synthesizer. -/
theorem claim3_first_chunk_too_long (d : Document) (rest : List Document) (M : Nat)
    (flag : Bool) (h : M < d.page_content.length) :
    retrievalAndRerankDocs (d :: rest) M flag = [] ∧
    (∀ (g : String → Except String (List Document)) (q : String),
      g q = Except.ok (d :: rest) →
      retrievalAndRerank g M flag q = Except.ok []) := by
  have hsel : selectByBudget (d :: rest) M = [] := by
    rw [selectByBudget_eq_take]
    simp [numFit, if_pos h]
  have hmain : retrievalAndRerankDocs (d :: rest) M flag = [] := by
    cases flag <;> simp [retrievalAndRerankDocs, hsel]
  refine ⟨hmain, ?_⟩
  intro g q hg
  simp [retrievalAndRerank, hg, hmain]

/-- Witness for claim C3 at a concrete input: a single chunk of length 2 and
a budget of 1 yield the empty selection. -/
theorem claim3_witness :
    retrievalAndRerankDocs [⟨"ab", "s", 0, none⟩] 1 true = [] :=
  (claim3_first_chunk_too_long ⟨"ab", "s", 0, none⟩ [] 1 true (by decide)).1

/-- Claim C4: whenever the retrieval step of `run` succeeds, `run` returns a
string even if the QA chain fails: a generation failure with description `e`
is absorbed and the returned answer is exactly `e`. -/
theorem claim4_generation_failure_absorbed
    (g : String → Except String (List Document))
    (qa : List Document → String → Except String String)
    (M : Nat) (flag : Bool) (q : String) (docs : List Document)
    (hr : retrievalAndRerank g M flag q = Except.ok docs) :
    (∃ s : String, run g qa M flag q = Except.ok s) ∧
    (∀ e : String, qa docs q = Except.error e → run g qa M flag q = Except.ok e) := by
  constructor
  · cases hqa : qa docs q with
    | ok s => exact ⟨s, by simp [run, hr, hqa]⟩
    | error e => exact ⟨e, by simp [run, hr, hqa]⟩
  · intro e he
    simp [run, hr, he]

/-- Witness for claim C4 at a concrete input: with an empty retrieval result
and a QA chain that always fails, `run` returns the error description as its
answer string. -/
theorem claim4_witness :
    run (fun _ => Except.ok []) (fun _ _ => Except.error "generation failed") 0 false "q" =
      Except.ok "generation failed" :=
  (claim4_generation_failure_absorbed (fun _ => Except.ok [])
    (fun _ _ => Except.error "generation failed") 0 false "q" [] rfl).2
    "generation failed" rfl

/-- Claim C6: a retrieval failure is propagated by `run` as a failure, not
converted into an answer string, while a generation failure (retrieval having
succeeded) is converted into an answer string. -/
theorem claim6_retrieval_failure_propagates
    (g : String → Except String (List Document))
    (qa : List Document → String → Except String String)
    (M : Nat) (flag : Bool) (q : String) :
    (∀ e : String, g q = Except.error e → run g qa M flag q = Except.error e) ∧
    (∀ (docs : List Document) (e : String),
      retrievalAndRerank g M flag q = Except.ok docs →
      qa docs q = Except.error e → run g qa M flag q = Except.ok e) := by
  constructor
  · intro e he
    simp [run, retrievalAndRerank, he]
  · intro docs e hr hqa
    simp [run, hr, hqa]

/-- Witness for claim C6 at a concrete input: a retriever that raises yields
`Except.error`, not an answer string. -/
theorem claim6_witness :
    run (fun _ => Except.error "all strategies failed")
      (fun _ _ => Except.ok "answer") 0 false "q" =
      Except.error "all strategies failed" :=
  (claim6_retrieval_failure_propagates (fun _ => Except.error "all strategies failed")
    (fun _ _ => Except.ok "answer") 0 false "q").1 "all strategies failed" rfl

/-- Claim C7: the constructor raises its configuration `ValueError` exactly
when no collection name is supplied and at least one of the two pre-built
stores is missing; supplying a collection name, or both stores, avoids it. -/
theorem claim7_config_error {V K : Type} (vector_store : Option V)
    (keyword_store : Option K) (collection_name : Option String) :
    (initRaisesConfigError vector_store keyword_store collection_name = true ↔
      collection_name = none ∧ (keyword_store = none ∨ vector_store = none)) ∧
    ((collection_name ≠ none ∨ (vector_store ≠ none ∧ keyword_store ≠ none)) →
      initRaisesConfigError vector_store keyword_store collection_name = false) := by
  constructor
  · simp [initRaisesConfigError, Option.isNone_iff_eq_none]
  · intro h
    rcases h with h | ⟨hv, hk⟩
    · simp [initRaisesConfigError, Option.isNone_iff_eq_none, h]
    · simp only [initRaisesConfigError, Option.isNone_iff_eq_none, Bool.and_eq_false_iff,
        Bool.or_eq_false_iff, Option.isNone_eq_false_iff, Option.isSome_iff_ne_none]
      exact Or.inr ⟨hk, hv⟩

/-- Witness for claim C7 at concrete inputs: with a collection name but no
stores, the configuration error is not raised. -/
theorem claim7_witness :
    initRaisesConfigError (none : Option Unit) (none : Option Unit) (some "rag") = false :=
  (claim7_config_error (none : Option Unit) (none : Option Unit) (some "rag")).2
    (Or.inl (by simp))

/-- Claim C8: the asynchronous entry point `arun` returns exactly what the
synchronous `run` returns for every query and every environment, since it
delegates directly to `run`. -/
theorem claim8_arun_eq_run
    (g : String → Except String (List Document))
    (qa : List Document → String → Except String String)
    (M : Nat) (flag : Bool) (q : String) :
    arun g qa M flag q = run g qa M flag q := rfl

theorem dedupByKey_sublist : ∀ (l : List Document) (seen : List (String × Int)),
    List.Sublist (dedupByKey seen l) l := by
  intro l
  induction l with
  | nil => intro seen; simp [dedupByKey]
  | cons d0 rest ih =>
    intro seen
    simp only [dedupByKey]
    by_cases h0 : dedupKey d0 ∈ seen
    · rw [if_pos h0]
      exact List.Sublist.cons d0 (ih seen)
    · rw [if_neg h0]
      exact List.Sublist.cons₂ d0 (ih _)

theorem dedupKey_not_seen_of_mem : ∀ (l : List Document) (seen : List (String × Int))
    (d : Document), d ∈ dedupByKey seen l → dedupKey d ∉ seen := by
  intro l
  induction l with
  | nil => intro seen d h; simp [dedupByKey] at h
  | cons d0 rest ih =>
    intro seen d h
    simp only [dedupByKey] at h
    by_cases h0 : dedupKey d0 ∈ seen
    · rw [if_pos h0] at h
      exact ih seen d h
    · rw [if_neg h0] at h
      rcases List.mem_cons.mp h with rfl | h
      · exact h0
      · intro hseen
        exact ih _ d h (List.mem_cons_of_mem _ hseen)

theorem dedupByKey_pairwise : ∀ (l : List Document) (seen : List (String × Int)),
    (dedupByKey seen l).Pairwise (fun a b => dedupKey a ≠ dedupKey b) := by
  intro l
  induction l with
  | nil => intro seen; simp [dedupByKey]
  | cons d0 rest ih =>
    intro seen
    simp only [dedupByKey]
    by_cases h0 : dedupKey d0 ∈ seen
    · rw [if_pos h0]
      exact ih seen
    · rw [if_neg h0]
      refine List.Pairwise.cons ?_ (ih _)
      intro b hb he
      exact dedupKey_not_seen_of_mem rest _ b hb (by rw [← he]; exact List.mem_cons_self _ _)

theorem dedupByKey_find? : ∀ (l : List Document) (seen : List (String × Int))
    (k : String × Int), k ∉ seen →
    (dedupByKey seen l).find? (fun d => decide (dedupKey d = k)) =
      l.find? (fun d => decide (dedupKey d = k)) := by
  intro l
  induction l with
  | nil => intro seen k _; simp [dedupByKey]
  | cons d0 rest ih =>
    intro seen k hk
    simp only [dedupByKey]
    by_cases h0 : dedupKey d0 ∈ seen
    · rw [if_pos h0]
      have hne : ¬(dedupKey d0 = k) := fun he => hk (he ▸ h0)
      rw [List.find?_cons_of_neg _ (by simp [hne]), ih seen k hk]
    · rw [if_neg h0]
      by_cases heq : dedupKey d0 = k
      · rw [List.find?_cons_of_pos _ (by simp [heq]), List.find?_cons_of_pos _ (by simp [heq])]
      · rw [List.find?_cons_of_neg _ (by simp [heq]), List.find?_cons_of_neg _ (by simp [heq])]
        refine ih _ k ?_
        intro hmem
        rcases List.mem_cons.mp hmem with h | h
        · exact heq h.symm
        · exact hk h

/-- Claim C5: the merged retrieval result is deduplicated by
`(source, chunk_index)`: no two elements of the merge share a key, the merge
is a sublist of the concatenation of the strategies' ranked lists in
registration order (later duplicates are dropped entirely), and for every key
the element kept is the first one carrying that key in that concatenation,
i.e. the occurrence from the earliest-registered strategy. -/
theorem claim5_ensemble_dedup (ranked_lists : List (List Document)) :
    ((ensembleMerge ranked_lists).Pairwise fun a b => dedupKey a ≠ dedupKey b) ∧
    List.Sublist (ensembleMerge ranked_lists) ranked_lists.flatten ∧
    (∀ k : String × Int,
      (ensembleMerge ranked_lists).find? (fun d => decide (dedupKey d = k)) =
        ranked_lists.flatten.find? (fun d => decide (dedupKey d = k))) := by
  refine ⟨dedupByKey_pairwise _ [], dedupByKey_sublist _ [], ?_⟩
  intro k
  exact dedupByKey_find? _ [] k (by simp)

/-- The four registered retriever type names. -/
def registeredRetrieverTypes : List String :=
  ["KeywordRetriever", "BaselineVectorRetriever", "MixRetriever",
   "SmallerChunksVectorRetriever"]

theorem postInitRetriever_of_not_mem (t : String) (h : t ∉ registeredRetrieverTypes) :
    postInitRetriever t = Except.error ("Unknown retriever type: " ++ t) := by
  simp only [registeredRetrieverTypes, List.mem_cons, List.not_mem_nil, or_false,
    not_or] at h
  obtain ⟨h1, h2, h3, h4⟩ := h
  have hnone : retrieverClasses.find? (fun p => p.1 == t) = none := by
    rw [List.find?_eq_none]
    intro x hx
    simp only [retrieverClasses, List.mem_cons, List.not_mem_nil, or_false] at hx
    rcases hx with rfl | rfl | rfl | rfl
    · exact fun hbeq => Ne.symm h1 (eq_of_beq hbeq)
    · exact fun hbeq => Ne.symm h2 (eq_of_beq hbeq)
    · exact fun hbeq => Ne.symm h3 (eq_of_beq hbeq)
    · exact fun hbeq => Ne.symm h4 (eq_of_beq hbeq)
  simp [postInitRetriever, hnone]

/-- Claim C9: `_post_init_retriever` raises its unknown-type `ValueError`
exactly when the given `retriever_type` is not one of the four registered
names; each registered name selects the corresponding retriever class and
never yields that error. -/
theorem claim9_retriever_registry (retriever_type : String) :
    ((∃ c, postInitRetriever retriever_type = Except.ok c) ↔
      retriever_type ∈ registeredRetrieverTypes) ∧
    (retriever_type ∉ registeredRetrieverTypes →
      postInitRetriever retriever_type =
        Except.error ("Unknown retriever type: " ++ retriever_type)) ∧
    postInitRetriever "KeywordRetriever" = Except.ok RetrieverClass.KeywordRetriever ∧
    postInitRetriever "BaselineVectorRetriever" = Except.ok RetrieverClass.BaselineVectorRetriever ∧
    postInitRetriever "MixRetriever" = Except.ok RetrieverClass.MixRetriever ∧
    postInitRetriever "SmallerChunksVectorRetriever" =
      Except.ok RetrieverClass.SmallerChunksVectorRetriever := by
  refine ⟨?_, postInitRetriever_of_not_mem retriever_type, rfl, rfl, rfl, rfl⟩
  constructor
  · rintro ⟨c, hc⟩
    by_contra hmem
    rw [postInitRetriever_of_not_mem retriever_type hmem] at hc
    cases hc
  · intro hmem
    simp only [registeredRetrieverTypes, List.mem_cons, List.not_mem_nil, or_false] at hmem
    rcases hmem with rfl | rfl | rfl | rfl
    · exact ⟨RetrieverClass.KeywordRetriever, rfl⟩
    · exact ⟨RetrieverClass.BaselineVectorRetriever, rfl⟩
    · exact ⟨RetrieverClass.MixRetriever, rfl⟩
    · exact ⟨RetrieverClass.SmallerChunksVectorRetriever, rfl⟩

/-- Witness for claim C9 at a concrete input: an unregistered name yields the
unknown-type error. -/
theorem claim9_witness :
    postInitRetriever "FooRetriever" =
      Except.error ("Unknown retriever type: " ++ "FooRetriever") :=
  (claim9_retriever_registry "FooRetriever").2.1 (by decide)

/-- Claim C10: with `add_aux_info` enabled, every document comes out of the
title-extraction loop with a `title` metadata key: extraction failures are
caught per document, the failing document getting the empty-string title, a
succeeding one its extracted title, and the loop never drops a document. -/
theorem claim10_title_always_set (extract_title : Document → Except String String)
    (documents : List Document) :
    (addAuxInfo extract_title documents).length = documents.length ∧
    (∀ d ∈ addAuxInfo extract_title documents, d.title.isSome = true) ∧
    (∀ (i : Nat) (doc : Document), documents[i]? = some doc →
      ∀ e : String, extract_title doc = Except.error e →
        (addAuxInfo extract_title documents)[i]? = some { doc with title := some "" }) ∧
    (∀ (i : Nat) (doc : Document) (t : String), documents[i]? = some doc →
      extract_title doc = Except.ok t →
        (addAuxInfo extract_title documents)[i]? = some { doc with title := some t }) := by
  refine ⟨by simp [addAuxInfo], ?_, ?_, ?_⟩
  · intro d hd
    simp only [addAuxInfo, List.mem_map] at hd
    obtain ⟨a, -, rfl⟩ := hd
    simp
  · intro i doc hi e he
    simp [addAuxInfo, List.getElem?_map, hi, he]
  · intro i doc t hi ht
    simp [addAuxInfo, List.getElem?_map, hi, ht]

/-- Witness for claim C10 at a concrete input: a failing extractor still
produces a document, with the empty string as title. -/
theorem claim10_witness :
    (addAuxInfo (fun _ => Except.error "llm down") [⟨"txt", "s", 0, none⟩])[0]? =
      some ⟨"txt", "s", 0, some ""⟩ :=
  (claim10_title_always_set (fun _ => Except.error "llm down")
    [⟨"txt", "s", 0, none⟩]).2.2.1 0 ⟨"txt", "s", 0, none⟩ rfl "llm down" rfl

end BishengRag
